import Mathlib

/-!
Shallow embedding of the brutella/dnssd mDNS / DNS-SD library (Go) and
verification of the specification's claims about it.

Go strings are modelled as lists of characters (`GoStr`), Go maps as
association lists with replace-on-insert semantics, `time.Time` / TTL values
as natural numbers (seconds), and `net.IP` as a tagged byte list.  Functions
named after Go functions are translated from the repository's source; a few
helpers that live in a file of the repository that is not part of the given
sources (dns.go) are modelled from the specification and carry a doc comment
saying so.
-/

namespace Dnssd

/-- Go strings, modelled as lists of characters. -/
abbrev GoStr := List Char

/-- Conversion from a Lean string literal to a `GoStr`. -/
def gs (s : String) : GoStr := s.data

/-- Auxiliary recursion for `splitOn`. -/
def splitOnAux (sep : Char) : GoStr → GoStr → List GoStr
  | [], acc => [acc.reverse]
  | c :: cs, acc =>
    if c = sep then acc.reverse :: splitOnAux sep cs []
    else splitOnAux sep cs (c :: acc)

/-- Go `strings.Split(s, sep)` for a one-character separator. -/
def splitOn (sep : Char) (s : GoStr) : List GoStr := splitOnAux sep s []

/-- Go `strings.SplitN(s, sep, 2)` at a one-character separator:
`some (before, after)` split at the first occurrence, `none` when the
separator does not occur (Go then returns a single element). -/
def splitN2 (sep : Char) : GoStr → Option (GoStr × GoStr)
  | [] => none
  | c :: cs =>
    if c = sep then some ([], cs)
    else (splitN2 sep cs).map (fun p => (c :: p.1, p.2))

/-- Go `strings.ToLower` (ASCII folding suffices for DNS names). -/
def toLowerStr (s : GoStr) : GoStr := s.map Char.toLower

/-- Go `strings.EqualFold` (ASCII folding suffices for DNS names). -/
def equalFold (a b : GoStr) : Bool := toLowerStr a == toLowerStr b

/-- Go `strings.Compare`: byte-wise lexicographic three-way comparison
(character code points, which agrees with UTF-8 byte order). -/
def goCompare : GoStr → GoStr → Int
  | [], [] => 0
  | [], _ :: _ => -1
  | _ :: _, [] => 1
  | a :: as, b :: bs =>
    if a.toNat < b.toNat then -1
    else if b.toNat < a.toNat then 1
    else goCompare as bs

/-- Decimal rendering of a natural number, as used by Go `fmt.Sprintf("%d", n)`. -/
def natToStr (n : Nat) : GoStr := (toString n).data

/-- Lookup in a Go map modelled as an association list (first binding wins). -/
def lookup? {α : Type} (m : List (GoStr × α)) (k : GoStr) : Option α :=
  match m.find? (fun p => p.1 == k) with
  | some p => some p.2
  | none => none

/-- Insertion into a Go map modelled as an association list: replaces the
existing binding, otherwise appends. -/
def mapInsert {α : Type} : List (GoStr × α) → GoStr → α → List (GoStr × α)
  | [], k, v => [(k, v)]
  | (k', v') :: rest, k, v =>
    if k' == k then (k, v) :: rest else (k', v') :: mapInsert rest k v

/-- Go `net.IP`, restricted to the two shapes the library builds. -/
inductive IP where
  | v4 (a b c d : Nat)
  | v6 (bytes : List Nat)
  deriving Repr, DecidableEq

/-- A network interface together with its addresses (the `iface.Addrs()`
host abstraction). -/
structure Iface where
  name : GoStr
  addrs : List IP
  deriving Repr, DecidableEq

/-- The `Service` struct of service.go.  `text` is the Go map `Text`,
`ifaceIPs` the map from interface name to addresses; times are in seconds. -/
structure Service where
  name : GoStr
  type : GoStr
  domain : GoStr
  host : GoStr
  text : List (GoStr × GoStr)
  ttl : Nat
  port : Nat
  ips : List IP
  ifaces : List GoStr
  ifaceIPs : List (GoStr × List IP)
  expiration : Nat
  deriving Repr, DecidableEq

/-- The zero value of the Go `Service` struct. -/
def zeroService : Service :=
  { name := [], type := [], domain := [], host := [], text := [], ttl := 0,
    port := 0, ips := [], ifaces := [], ifaceIPs := [], expiration := 0 }

/-- service.go `(s Service) ServiceInstanceName()`: `Name.Type.Domain.`. -/
def ServiceInstanceName (s : Service) : GoStr :=
  s.name ++ gs "." ++ s.type ++ gs "." ++ s.domain ++ gs "."

/-- service.go `(s Service) ServiceName()`: `Type.Domain.`. -/
def ServiceName (s : Service) : GoStr :=
  s.type ++ gs "." ++ s.domain ++ gs "."

/-- service.go `(s Service) Hostname()`: `Host.Domain.`. -/
def Hostname (s : Service) : GoStr :=
  s.host ++ gs "." ++ s.domain ++ gs "."

/-- service.go `(s Service) ServicesMetaQueryName()`. -/
def ServicesMetaQueryName (s : Service) : GoStr :=
  gs "_services._dns-sd._udp." ++ s.domain ++ gs "."

/-- service.go `parseServiceInstanceName`: split at every '.', take element 0
as the name, elements 1-2 as the service type, element 3 as the domain. -/
def parseServiceInstanceName (str : GoStr) : GoStr × GoStr × GoStr :=
  let elems := splitOn '.' str
  let name := elems.headD []
  let service :=
    if 2 < elems.length then elems.getD 1 [] ++ gs "." ++ elems.getD 2 []
    else []
  let domain := if 3 < elems.length then elems.getD 3 [] else []
  (name, service, domain)

/-- service.go `parseHostname`: split at '.', take elements 0 and 1. -/
def parseHostname (str : GoStr) : GoStr × GoStr :=
  let elems := splitOn '.' str
  (elems.headD [], if 1 < elems.length then elems.getD 1 [] else [])

/-- service.go `newService`: parse the instance name, all other fields zero. -/
def newService (inst : GoStr) : Service :=
  let p := parseServiceInstanceName inst
  { zeroService with name := p.1, type := p.2.1, domain := p.2.2 }

/-- service.go `(s *Service) SetHostname`: adopt the first label of the
argument as `Host` when the second label equals the service's domain. -/
def SetHostname (s : Service) (hostname : GoStr) : Service :=
  let p := parseHostname hostname
  if p.2 == s.domain then { s with host := p.1 } else s

/-- service.go `(s *Service) addIP`: append to `IPs` and to the per-interface
list of the given interface. -/
def addIP (s : Service) (ip : IP) (iface : Iface) : Service :=
  let ifaceIPs :=
    match lookup? s.ifaceIPs iface.name with
    | some ips => mapInsert s.ifaceIPs iface.name (ips ++ [ip])
    | none => mapInsert s.ifaceIPs iface.name [ip]
  { s with ips := s.ips ++ [ip], ifaceIPs := ifaceIPs }

/-- service.go `(s *Service) IPsAtInterface`: the cached per-interface list if
present, else the explicit `IPs`, else the interface's own addresses. -/
def IPsAtInterface (s : Service) (iface : Iface) : List IP :=
  match lookup? s.ifaceIPs iface.name with
  | some ips => ips
  | none => if s.ips.length > 0 then s.ips else iface.addrs

/-! DNS message model (the slice of the miekg/dns codec the library uses). -/

/-- `dns.ClassINET`. -/
def classINET : Nat := 1

/-- `dns.TypeSRV`. -/
def typeSRV : Nat := 33

/-- `dns.TypeTXT`. -/
def typeTXT : Nat := 16

/-- `dns.TypePTR`. -/
def typePTR : Nat := 12

/-- The resource-record header fields the library reads or writes. -/
structure RRHeader where
  name : GoStr
  cls : Nat
  ttl : Nat
  deriving Repr, DecidableEq

/-- A typed resource record (tagged union over the record kinds in use). -/
inductive RR where
  | ptr (hdr : RRHeader) (ptrTarget : GoStr)
  | srv (hdr : RRHeader) (priority weight port : Nat) (target : GoStr)
  | txt (hdr : RRHeader) (strs : List GoStr)
  | a (hdr : RRHeader) (ip : IP)
  | aaaa (hdr : RRHeader) (ip : IP)
  | nsec (hdr : RRHeader) (types : List Nat)
  deriving Repr, DecidableEq

/-- The header of a record. -/
def RR.header : RR → RRHeader
  | .ptr hdr _ => hdr
  | .srv hdr _ _ _ _ => hdr
  | .txt hdr _ => hdr
  | .a hdr _ => hdr
  | .aaaa hdr _ => hdr
  | .nsec hdr _ => hdr

/-- Replace the class field of a record's header. -/
def RR.withClass (r : RR) (cls : Nat) : RR :=
  match r with
  | .ptr hdr t => .ptr { hdr with cls := cls } t
  | .srv hdr p w po t => .srv { hdr with cls := cls } p w po t
  | .txt hdr s => .txt { hdr with cls := cls } s
  | .a hdr ip => .a { hdr with cls := cls } ip
  | .aaaa hdr ip => .aaaa { hdr with cls := cls } ip
  | .nsec hdr ts => .nsec { hdr with cls := cls } ts

/-- A DNS question. -/
structure Question where
  name : GoStr
  qtype : Nat
  qclass : Nat
  deriving Repr, DecidableEq

/-- A DNS message: Question / Answer / Authority / Additional sections. -/
structure Msg where
  question : List Question := []
  answer : List RR := []
  ns : List RR := []
  extra : List RR := []
  deriving Repr, DecidableEq

/-! The resource-record cache (cache.go). -/

/-- The cache: Go map from instance name to service entry. -/
structure Cache where
  services : List (GoStr × Service)
  deriving Repr, DecidableEq

/-- cache.go `NewCache`. -/
def NewCache : Cache := ⟨[]⟩

/-- Whether a record is an SRV or PTR record. -/
def isSrvOrPtr : RR → Bool
  | .srv _ _ _ _ _ => true
  | .ptr _ _ => true
  | _ => false

/-- cache.go `sort.Sort(byType answers)`: the comparator orders SRV and PTR
records before every other record kind, which amounts to partitioning the
answers with SRV/PTR first. -/
def sortByType (rrs : List RR) : List RR :=
  rrs.filter isSrvOrPtr ++ rrs.filter (fun r => !isSrvOrPtr r)

/-- cache.go `filterRecords(msg, iface, nil)` as called by `UpdateFrom`:
with a nil service the interface filter is inactive and the function returns
the concatenation of the Answer, Authority and Additional sections. -/
def filterRecordsNilService (m : Msg) : List RR :=
  m.answer ++ m.ns ++ m.extra

/-- The TXT-string parsing loop of `Cache.UpdateFrom` (cache.go lines 93-108):
split each string at the first '=', skip strings without '='; the guarded
insert refuses to override an existing key, but the following unconditional
assignment overrides it anyway. -/
def txtFromStrings (strs : List GoStr) : List (GoStr × GoStr) :=
  strs.foldl
    (fun text t =>
      match splitN2 '=' t with
      | some (key, value) =>
        let text1 :=
          if (lookup? text key).isSome then text else mapInsert text key value
        mapInsert text1 key value
      | none => text)
    []

/-- One step of the record loop of `Cache.UpdateFrom`; `now` is the value of
`time.Now()` (in seconds) while records are processed, `iface` the arrival
interface, the pair accumulates the cache and the `adds` list. -/
def processRecord (now : Nat) (iface : Iface) (st : Cache × List Service) (r : RR) :
    Cache × List Service :=
  let c := st.1
  let adds := st.2
  match r with
  | .ptr hdr ptrTarget =>
    let ttl := hdr.ttl
    (match lookup? c.services ptrTarget with
     | none =>
       if ttl = 0 then (c, adds)
       else
         let entry0 := newService ptrTarget
         let entry := { entry0 with ttl := ttl, expiration := now + ttl }
         (⟨mapInsert c.services (ServiceInstanceName entry0) entry⟩,
          adds ++ [entry])
     | some e =>
       let entry := { e with ttl := ttl, expiration := now + ttl }
       (⟨mapInsert c.services ptrTarget entry⟩, adds))
  | .srv hdr _ _ port target =>
    let ttl := hdr.ttl
    (match lookup? c.services hdr.name with
     | none =>
       if ttl = 0 then (c, adds)
       else
         let entry0 := newService hdr.name
         let entry1 := SetHostname entry0 target
         let entry :=
           { entry1 with ttl := ttl, expiration := now + ttl, port := port }
         (⟨mapInsert c.services (ServiceInstanceName entry0) entry⟩,
          adds ++ [entry])
     | some e =>
       let entry1 := SetHostname e target
       let entry :=
         { entry1 with ttl := ttl, expiration := now + ttl, port := port }
       (⟨mapInsert c.services hdr.name entry⟩, adds))
  | .a hdr ip =>
    (⟨c.services.map (fun p =>
        if Hostname p.2 == hdr.name then (p.1, addIP p.2 ip iface)
        else p)⟩, adds)
  | .aaaa hdr ip =>
    (⟨c.services.map (fun p =>
        if Hostname p.2 == hdr.name then (p.1, addIP p.2 ip iface)
        else p)⟩, adds)
  | .txt hdr strs =>
    (match lookup? c.services hdr.name with
     | some e =>
       let entry :=
         { e with text := txtFromStrings strs, ttl := hdr.ttl,
                  expiration := now + hdr.ttl }
       (⟨mapInsert c.services hdr.name entry⟩, adds)
     | none => (c, adds))
  | .nsec _ _ => (c, adds)

/-- The record loop of `Cache.UpdateFrom` over the filtered, sorted answers. -/
def updateRecords (c : Cache) (msg : Msg) (iface : Iface) (now : Nat) :
    Cache × List Service :=
  (sortByType (filterRecordsNilService msg)).foldl (processRecord now iface) (c, [])

/-- cache.go `Cache.removeExpired`: delete and report every entry whose
expiration lies strictly before `now` (`time.Now().After(expiration)`). -/
def removeExpired (c : Cache) (now : Nat) : Cache × List Service :=
  (⟨c.services.filter (fun p => !decide (p.2.expiration < now))⟩,
   (c.services.filter (fun p => decide (p.2.expiration < now))).map (·.2))

/-- cache.go `Cache.UpdateFrom`: process the records (at clock value `now`),
then remove expired entries (at the strictly later clock value `now'` of the
second `time.Now()` call); returns (cache, adds, rmvs). -/
def UpdateFrom (c : Cache) (msg : Msg) (iface : Iface) (now now' : Nat) :
    Cache × List Service × List Service :=
  let st := updateRecords c msg iface now
  let ex := removeExpired st.1 now'
  (ex.1, st.2, ex.2)

/-! The prober (probe.go, given as src/unnamed/part_000). -/

/-- The `probeConflict` struct. -/
structure ProbeConflict where
  hostname : Bool
  serviceName : Bool
  deriving Repr, DecidableEq

/-- `probeConflict.hasNone`. -/
def ProbeConflict.hasNone (pr : ProbeConflict) : Bool :=
  !pr.hostname && !pr.serviceName

/-- `probeConflict.hasAny`. -/
def ProbeConflict.hasAny (pr : ProbeConflict) : Bool :=
  pr.hostname || pr.serviceName

/-- The fields of a `dns.SRV` record that `isDenyingSRV` and `compareSRV`
read. -/
structure SRVRec where
  name : GoStr
  priority : Nat
  weight : Nat
  port : Nat
  target : GoStr
  deriving Repr, DecidableEq

/-- `compareSRV`: three-way comparison by priority, then weight, then port,
then `strings.Compare` on the target. -/
def compareSRV (this that : SRVRec) : Int :=
  if this.priority < that.priority then -1
  else if this.priority > that.priority then 1
  else if this.weight < that.weight then -1
  else if this.weight > that.weight then 1
  else if this.port < that.port then -1
  else if this.port > that.port then 1
  else goCompare this.target that.target

/-- `isValidRR` restricted to SRV records: non-empty target and non-zero
port. -/
def isValidSRV (r : SRVRec) : Bool :=
  r.target.length > 0 && r.port != 0

/-- `isDenyingSRV`: `this` denies `that` when the owner names are equal under
case folding and `this` is invalid or compares lexicographically later. -/
def isDenyingSRV (this that : SRVRec) : Bool :=
  if equalFold this.name that.name then
    if !isValidSRV this then true
    else if compareSRV this that = 1 then true
    else false
  else false

/-- The outcome of one `probe` call inside the probing loop: either an error
(modelled as a numeric code) or a conflict report (`hasNone` meaning no
conflict). -/
inductive RoundOutcome where
  | fails (e : Nat)
  | conflict (c : ProbeConflict)
  deriving Repr, DecidableEq

/-- The loop state of `probeService`. -/
structure ProbeState where
  candidate : Service
  prevConflict : ProbeConflict
  numHostConflicts : Nat
  numNameConflicts : Nat
  deriving Repr, DecidableEq

/-- The body of one iteration of the `probeService` loop after a conflicting
round: bump `Host` to `srv.Host-N` when the hostname conflict repeats (or on
the first conflict when `probeOnce`), likewise `Name`, clear the handled
flags, remember the remaining conflict as `prevConflict`. -/
def probeRound (srv : Service) (probeOnce : Bool) (st : ProbeState)
    (c : ProbeConflict) : ProbeState :=
  let hostBump := c.hostname && (st.prevConflict.hostname || probeOnce)
  let numHost := if hostBump then st.numHostConflicts + 1 else st.numHostConflicts
  let cand1 :=
    if hostBump then
      { st.candidate with host := srv.host ++ gs "-" ++ natToStr (numHost + 1) }
    else st.candidate
  let c1 := if hostBump then { c with hostname := false } else c
  let nameBump := c1.serviceName && (st.prevConflict.serviceName || probeOnce)
  let numName := if nameBump then st.numNameConflicts + 1 else st.numNameConflicts
  let cand2 :=
    if nameBump then
      { cand1 with name := srv.name ++ gs "-" ++ natToStr (numName + 1) }
    else cand1
  let c2 := if nameBump then { c1 with serviceName := false } else c1
  { candidate := cand2, prevConflict := c2,
    numHostConflicts := numHost, numNameConflicts := numName }

/-- The `for i := 1; i <= 100` loop of `probeService`, driven by the list of
probe outcomes; `none` models blocking forever on a probe that never returns
(the outcome list ran out), fuel `0` models falling out of the loop, which
returns the zero service and a nil error. -/
def probeLoop (srv : Service) (probeOnce : Bool) :
    List RoundOutcome → Nat → ProbeState → Option (Service × Option Nat)
  | _, 0, _ => some (zeroService, none)
  | [], _ + 1, _ => none
  | ro :: rest, n + 1, st =>
    match ro with
    | .fails e => some (zeroService, some e)
    | .conflict c =>
      if c.hasNone then some (st.candidate, none)
      else probeLoop srv probeOnce rest n (probeRound srv probeOnce st c)

/-- `probeService` (src/unnamed/part_000 lines 52-103): start from a copy of
`srv` with no previous conflict and zero conflict counters, run at most 100
rounds. -/
def probeService (rounds : List RoundOutcome) (srv : Service)
    (probeOnce : Bool) : Option (Service × Option Nat) :=
  probeLoop srv probeOnce rounds 100
    { candidate := srv, prevConflict := ⟨false, false⟩,
      numHostConflicts := 0, numNameConflicts := 0 }

/-! The resolver (resolve.go). -/

/-- Modelled from the spec: the helper `setQuestionUnicast` lives in the
repository's dns.go, which is not among the given sources; per the spec it
sets the unicast-response bit, the high bit (bit 15) of QCLASS. -/
def setQuestionUnicast (q : Question) : Question :=
  { q with qclass := q.qclass ||| 32768 }

/-- The two questions `lookupInstance` builds: SRV and TXT for the instance
name, both sent through `setQuestionUnicast`. -/
def lookupQuestions (inst : GoStr) : List Question :=
  [setQuestionUnicast ⟨inst, typeSRV, classINET⟩,
   setQuestionUnicast ⟨inst, typeTXT, classINET⟩]

/-- The error a cancelled context reports. -/
inductive LookupErr where
  | ctxDone
  deriving Repr, DecidableEq

/-- An event observed by the `select` loop of `lookupInstance`: a message
received from the connection (with the two `time.Now()` samples of the
`UpdateFrom` call it triggers) or the context being cancelled.  Sending the
queries does not change the loop state and is omitted. -/
inductive LookupEvent where
  | recv (msg : Msg) (iface : Iface) (now now' : Nat)
  | cancel
  deriving Repr, DecidableEq

/-- The `select` loop of `lookupInstance` (resolve.go lines 47-63): update the
cache on every received message and return the cache's entry for `inst` as
soon as one exists; on cancellation return the zero service and the context
error; `none` models blocking forever when the events run out. -/
def lookupRun (inst : GoStr) : Cache → List LookupEvent →
    Option (Service × Option LookupErr)
  | _, [] => none
  | c, .recv msg iface now now' :: rest =>
    let c' := (UpdateFrom c msg iface now now').1
    match lookup? c'.services inst with
    | some s => some (s, none)
    | none => lookupRun inst c' rest
  | _, .cancel :: _ => some (zeroService, some .ctxDone)

/-- The cache produced by folding the received messages of an event list
(cancellation leaves the cache unchanged). -/
def cacheAfter (c : Cache) (evts : List LookupEvent) : Cache :=
  evts.foldl
    (fun c e =>
      match e with
      | .recv msg iface now now' => (UpdateFrom c msg iface now now').1
      | .cancel => c)
    c

/-! The responder (responder.go) and the record constructors.  The
constructors, `setAnswerCacheFlushBit`, `remove` and `mergeMsgs` live in the
repository's dns.go, which is not among the given sources; they are modelled
from the spec. -/

/-- The TTL the record constructors stamp on new records; its exact value is
irrelevant to the claims. -/
def defaultTTL : Nat := 4500

/-- Modelled from the spec: the PTR constructor of the missing dns.go builds
`ServiceName  PTR  ServiceInstanceName`. -/
def PTR (s : Service) : RR :=
  .ptr ⟨ServiceName s, classINET, defaultTTL⟩ (ServiceInstanceName s)

/-- Modelled from the spec: the SRV constructor of the missing dns.go builds
an SRV record owned by the instance name, targeting the hostname and port. -/
def SRV (s : Service) : RR :=
  .srv ⟨ServiceInstanceName s, classINET, defaultTTL⟩ 0 0 s.port (Hostname s)

/-- Modelled from the spec: the TXT constructor of the missing dns.go builds
a TXT record owned by the instance name carrying the `key=value` strings. -/
def TXT (s : Service) : RR :=
  .txt ⟨ServiceInstanceName s, classINET, defaultTTL⟩
    (s.text.map (fun p => p.1 ++ gs "=" ++ p.2))

/-- Whether an address is an IPv4 address. -/
def IP.isV4 : IP → Bool
  | .v4 _ _ _ _ => true
  | .v6 _ => false

/-- Modelled from the spec: the A constructor of the missing dns.go builds
one A record per IPv4 address of the service at the interface, owned by the
hostname. -/
def A (s : Service) (iface : Iface) : List RR :=
  ((IPsAtInterface s iface).filter IP.isV4).map
    (fun ip => .a ⟨Hostname s, classINET, defaultTTL⟩ ip)

/-- Modelled from the spec: the AAAA constructor of the missing dns.go builds
one AAAA record per IPv6 address of the service at the interface. -/
def AAAA (s : Service) (iface : Iface) : List RR :=
  ((IPsAtInterface s iface).filter (fun ip => !ip.isV4)).map
    (fun ip => .aaaa ⟨Hostname s, classINET, defaultTTL⟩ ip)

/-- Modelled from the spec: the NSEC constructor of the missing dns.go lists
the record types the responder answers for the owner name of `rr`. -/
def NSEC (rr : RR) (s : Service) (iface : Iface) : RR :=
  .nsec ⟨rr.header.name, classINET, defaultTTL⟩
    (if (A s iface).length > 0 || (AAAA s iface).length > 0 then [1, 28]
     else [typeSRV, typeTXT])

/-- Modelled from the spec: the meta-query PTR constructor of the missing
dns.go answers `_services._dns-sd._udp.Domain.` with the service's type. -/
def DNSSDServicesPTR (s : Service) : RR :=
  .ptr ⟨ServicesMetaQueryName s, classINET, defaultTTL⟩ (ServiceName s)

/-- Modelled from the spec: `setAnswerCacheFlushBit` of the missing dns.go
sets the cache-flush bit, the high bit (bit 15) of CLASS, on every record of
the Answer section. -/
def setAnswerCacheFlushBit (m : Msg) : Msg :=
  { m with answer := m.answer.map (fun r => r.withClass (r.header.cls ||| 32768)) }

/-- Record identity as used by known-answer suppression: same kind, owner
name and payload; class (and with it the cache-flush bit) and TTL do not
participate. -/
def rrDataEq : RR → RR → Bool
  | .ptr h1 t1, .ptr h2 t2 => h1.name == h2.name && t1 == t2
  | .srv h1 p1 w1 po1 t1, .srv h2 p2 w2 po2 t2 =>
    h1.name == h2.name && p1 == p2 && w1 == w2 && po1 == po2 && t1 == t2
  | .txt h1 s1, .txt h2 s2 => h1.name == h2.name && s1 == s2
  | .a h1 ip1, .a h2 ip2 => h1.name == h2.name && ip1 == ip2
  | .aaaa h1 ip1, .aaaa h2 ip2 => h1.name == h2.name && ip1 == ip2
  | .nsec h1 t1, .nsec h2 t2 => h1.name == h2.name && t1 == t2
  | _, _ => false

/-- Modelled from the spec: `remove(known, answers)` of the missing dns.go
performs known-answer suppression, dropping from `answers` every record
already present in `known` (the behaviour TestRemove exercises). -/
def remove (known answers : List RR) : List RR :=
  answers.filter (fun r => !known.any (rrDataEq r))

/-- Modelled from the spec: `mergeMsgs` of the missing dns.go concatenates
the Answer, Authority and Additional sections of the messages. -/
def mergeMsgs (msgs : List Msg) : Msg :=
  { question := [],
    answer := (msgs.map Msg.answer).flatten,
    ns := (msgs.map Msg.ns).flatten,
    extra := (msgs.map Msg.extra).flatten }

/-- An inbound request as the responder sees it: the message and the arrival
interface (the source address plays no role in the claims). -/
structure Request where
  msg : Msg
  iface : Iface
  deriving Repr, DecidableEq

/-- responder.go `responder.handleQuestion` (lines 355-441): dispatch on the
lowercased question name, assemble Answer and Additional sections, set the
cache-flush bit on the unique-record branches, then suppress known answers. -/
def handleQuestion (q : Question) (req : Request) (srv : Service) :
    Option Msg :=
  let built : Option Msg :=
    if toLowerStr q.name == toLowerStr (ServiceName srv) then
      some { answer := [PTR srv],
             extra := [SRV srv, TXT srv] ++ A srv req.iface ++
               AAAA srv req.iface ++ [NSEC (PTR srv) srv req.iface] }
    else if toLowerStr q.name == toLowerStr (ServiceInstanceName srv) then
      some (setAnswerCacheFlushBit
        { answer := [SRV srv, TXT srv, PTR srv],
          extra := A srv req.iface ++ AAAA srv req.iface ++
            [NSEC (SRV srv) srv req.iface] })
    else if toLowerStr q.name == toLowerStr (Hostname srv) then
      some (setAnswerCacheFlushBit
        { answer := A srv req.iface ++ AAAA srv req.iface,
          extra := [NSEC (SRV srv) srv req.iface] })
    else if toLowerStr q.name == toLowerStr (ServicesMetaQueryName srv) then
      some { answer := [DNSSDServicesPTR srv], extra := [] }
    else none
  built.map (fun m => { m with answer := remove req.msg.answer m.answer })

/-- responder.go `responder.handleQuery` (lines 297-334): per question, merge
the per-service responses and skip the question entirely when the merged
Answer section is empty; returns the list of messages actually sent. -/
def handleQuery (req : Request) (services : List Service) : List Msg :=
  req.msg.question.filterMap
    (fun q =>
      let msgs := services.filterMap (fun srv => handleQuestion q req srv)
      let m := mergeMsgs msgs
      if m.answer.isEmpty then none else some m)

/-! Predicates and specification-side notions used to state the claims. -/

/-- Whether a record is an SRV record. -/
def RR.isSrv : RR → Bool
  | .srv _ _ _ _ _ => true
  | _ => false

/-- Whether a record is a TXT record. -/
def RR.isTxt : RR → Bool
  | .txt _ _ => true
  | _ => false

/-- Whether a record is a PTR record. -/
def RR.isPtr : RR → Bool
  | .ptr _ _ => true
  | _ => false

/-- Whether a record is an A record. -/
def RR.isA : RR → Bool
  | .a _ _ => true
  | _ => false

/-- Whether a record is an AAAA record. -/
def RR.isAaaa : RR → Bool
  | .aaaa _ _ => true
  | _ => false

/-- Whether a record is an NSEC record. -/
def RR.isNsec : RR → Bool
  | .nsec _ _ => true
  | _ => false

/-- Specification-side strict lexicographic order on strings ("the target
name compares later"). -/
def strLexGt : GoStr → GoStr → Prop
  | _ :: _, [] => True
  | [], _ => False
  | a :: as, b :: bs => b.toNat < a.toNat ∨ (a.toNat = b.toNat ∧ strLexGt as bs)

/-- Specification-side ordering of SRV records: priority, then weight, then
port, then target name ("lexicographically greater"). -/
def srvLexGreater (this that : SRVRec) : Prop :=
  that.priority < this.priority ∨
    (this.priority = that.priority ∧
      (that.weight < this.weight ∨
        (this.weight = that.weight ∧
          (that.port < this.port ∨
            (this.port = that.port ∧ strLexGt this.target that.target)))))

/-- Specification-side renaming rule: the k-th bump of an original label
appends "-(k+1)" to the original (never to an already bumped label). -/
def bumpedName (orig : GoStr) : Nat → GoStr
  | 0 => orig
  | k + 1 => orig ++ gs "-" ++ natToStr (k + 2)

/-- Specification-side count of the conflicts that trigger a rename: a
conflict (selected by `flag`) causes a bump when the previous round also had
it, or immediately when reprobing (`probeOnce`); a bump clears the flag. -/
def countBumps (probeOnce : Bool) (flag : ProbeConflict → Bool) :
    Bool → List ProbeConflict → Nat
  | _, [] => 0
  | prev, c :: rest =>
    if flag c && (prev || probeOnce) then 1 + countBumps probeOnce flag false rest
    else countBumps probeOnce flag (flag c) rest

/-! Concrete inputs used by the counterexamples and witnesses. -/

/-- A loopback-like interface with no addresses of its own. -/
def iface0 : Iface := ⟨gs "lo0", []⟩

/-- The instance name of the test service. -/
def svcKey : GoStr := gs "Test._asdf._tcp.local."

/-- A cache entry for `svcKey` that does not expire during the test. -/
def txtCacheEntry : Service := { newService svcKey with expiration := 100 }

/-- A cache holding `txtCacheEntry` under `svcKey`. -/
def txtCache : Cache := ⟨[(svcKey, txtCacheEntry)]⟩

/-- A message carrying one TXT record with a duplicated key. -/
def txtMsg : Msg :=
  { answer := [.txt ⟨svcKey, classINET, 10⟩ [gs "k=a", gs "k=b"]] }

/-- A service named "Test" on host "Alpha". -/
def alphaService : Service :=
  { zeroService with
      name := gs "Test"
      type := gs "_asdf._tcp"
      domain := gs "local"
      host := gs "Alpha"
      port := 1234 }

/-- A service whose visible name contains embedded dots. -/
def dotsService : Service :=
  { zeroService with
      name := gs "Test.With.Dots"
      type := gs "_asdf._tcp"
      domain := gs "local"
      host := gs "Computer"
      port := 12345 }

/-- A message answering with a single PTR record pointing at `svcKey`. -/
def ptrMsg : Msg :=
  { answer := [.ptr ⟨gs "_asdf._tcp.local.", classINET, 10⟩ svcKey] }

/-- The cache entry the PTR record of `ptrMsg` creates. -/
def ptrEntry : Service := { newService svcKey with ttl := 10, expiration := 10 }

/-- A pointed-to name that does not re-serialize to itself. -/
def weirdName : GoStr := gs "a.b.c.d.e."

/-- A message whose PTR record points at `weirdName`. -/
def weirdPtrMsg : Msg :=
  { answer := [.ptr ⟨gs "_p.", classINET, 5⟩ weirdName] }

/-- A goodbye message: PTR for `svcKey` with TTL 0. -/
def goodbyeMsg : Msg :=
  { answer := [.ptr ⟨gs "_asdf._tcp.local.", classINET, 0⟩ svcKey] }

/-- A cache entry for `svcKey` whose expiration already passed at time 4. -/
def staleEntry : Service := { newService svcKey with ttl := 5, expiration := 3 }

/-- A cache holding only `staleEntry`. -/
def staleCache : Cache := ⟨[(svcKey, staleEntry)]⟩

/-- A managed service with no addresses, for the responder witnesses. -/
def plainService : Service :=
  { zeroService with
      name := gs "Test"
      type := gs "_asdf._tcp"
      domain := gs "local"
      host := gs "Computer"
      port := 12345 }

/-- An ANY question for the instance name of `plainService`. -/
def instQ : Question := ⟨svcKey, 255, classINET⟩

/-- A request carrying no known answers. -/
def emptyReq : Request := ⟨{}, iface0⟩

/-- A request whose Answer section already lists the SRV and TXT records of
`plainService`. -/
def knownReq : Request :=
  ⟨{ answer := [SRV plainService, TXT plainService] }, iface0⟩

/-- The response `handleQuestion` builds for `instQ`/`knownReq`: only the PTR
survives known-answer suppression. -/
def suppressedResp : Msg :=
  { answer := [(PTR plainService).withClass (classINET ||| 32768)],
    extra := [.nsec ⟨ServiceInstanceName plainService, classINET, defaultTTL⟩
      [typeSRV, typeTXT]] }

/-! Theorems. -/

/-- C1: evaluation of the TXT branch of `Cache.UpdateFrom` at the failing
input.  A TXT record whose strings are `k=a` then `k=b` leaves the cached
entry with `k ↦ b`: the unconditional assignment after the guarded insert
makes the LAST occurrence win, contradicting the claim (and the source's own
comment) that the first value wins. -/
theorem txt_duplicate_key_last_value_wins :
    txtFromStrings [gs "k=a", gs "k=b"] = [(gs "k", gs "b")] ∧
    (lookup? ((UpdateFrom txtCache txtMsg iface0 0 0).1.services) svcKey).map
        Service.text = some [(gs "k", gs "b")] := by
  constructor <;> rfl

/-- C3: evaluation of `probeService` at the failing input.  One hundred
consecutive conflicting rounds make the loop run out: the function returns
the zero-value `Service` together with a nil error, although the claim (and
the doc comment of `ProbeService`) promises a non-nil error on exhaustion. -/
theorem probeService_exhaustion_nil_error :
    probeService (List.replicate 100 (.conflict ⟨true, false⟩)) alphaService
      false = some (zeroService, none) := by
  rfl

/-- C4: evaluation of the escaping round-trip at the failing input.  For
`Name = "Test.With.Dots"` the serialized instance name contains no backslash
at all (so no embedded dot becomes "\\."), and re-parsing it recovers the
name "Test", not "Test.With.Dots": the claimed round-trip fails. -/
theorem escaping_roundtrip_failure :
    ServiceInstanceName dotsService = gs "Test.With.Dots._asdf._tcp.local." ∧
    '\\' ∉ ServiceInstanceName dotsService ∧
    (newService (ServiceInstanceName dotsService)).name = gs "Test" ∧
    (newService (ServiceInstanceName dotsService)).name ≠ dotsService.name := by
  refine ⟨rfl, by decide, rfl, by decide⟩

/-- C2 (counterexample): a single received message whose only record is a PTR
for the requested instance makes `lookupInstance` return at once, with no
error, a service whose `Host` is empty and whose `Port` is zero — refuting
the claim that it returns only once the cache entry has a non-empty `Host`
and a non-zero `Port`. -/
theorem lookupInstance_counterexample :
    lookupRun svcKey NewCache [.recv ptrMsg iface0 0 0] =
      some (ptrEntry, none) ∧
    ptrEntry.host = [] ∧ ptrEntry.port = 0 := by
  refine ⟨rfl, rfl, rfl⟩

/-- C5 (counterexample): a PTR record with TTL 5 pointing at the unknown name
"a.b.c.d.e." creates an entry, but the entry is keyed by the re-serialized
instance name "a.b.c.d.", so a lookup by exactly the pointed-to name fails —
refuting the claim that the new entry is stored under the pointed-to name. -/
theorem cache_ptr_key_counterexample :
    lookup? (UpdateFrom NewCache weirdPtrMsg iface0 0 0).1.services weirdName
      = none ∧
    (UpdateFrom NewCache weirdPtrMsg iface0 0 0).1.services.map Prod.fst
      = [gs "a.b.c.d."] ∧
    ((UpdateFrom NewCache weirdPtrMsg iface0 0 0).2.1).length = 1 := by
  refine ⟨rfl, rfl, rfl⟩

/-- `goCompare` returns 1 exactly on lexicographically greater strings. -/
theorem goCompare_eq_one : ∀ a b : GoStr, goCompare a b = 1 ↔ strLexGt a b := by
  intro a
  induction a with
  | nil =>
    intro b
    cases b <;> simp [goCompare, strLexGt]
  | cons x xs ih =>
    intro b
    cases b with
    | nil => simp [goCompare, strLexGt]
    | cons y ys =>
      simp only [goCompare, strLexGt]
      rcases Nat.lt_trichotomy x.toNat y.toNat with h | h | h
      · rw [if_pos h]
        constructor
        · intro hc
          exact absurd hc (by decide)
        · rintro (hgt | ⟨heq, _⟩) <;> omega
      · rw [if_neg (by omega), if_neg (by omega)]
        rw [ih ys]
        constructor
        · intro hg
          exact Or.inr ⟨h, hg⟩
        · rintro (hgt | ⟨_, hg⟩)
          · omega
          · exact hg
      · rw [if_neg (by omega), if_pos h]
        exact iff_of_true rfl (Or.inl h)

/-- `compareSRV` returns 1 exactly on the specification's lexicographic
ordering of SRV records. -/
theorem compareSRV_eq_one (a b : SRVRec) :
    compareSRV a b = 1 ↔ srvLexGreater a b := by
  unfold compareSRV srvLexGreater
  split_ifs with h1 h2 h3 h4 h5 h6
  · constructor
    · intro hc; exact absurd hc (by decide)
    · rintro (h | ⟨h, _⟩) <;> omega
  · exact iff_of_true rfl (Or.inl h2)
  · constructor
    · intro hc; exact absurd hc (by decide)
    · rintro (h | ⟨_, h | ⟨h', _⟩⟩) <;> omega
  · exact iff_of_true rfl (Or.inr ⟨by omega, Or.inl h4⟩)
  · constructor
    · intro hc; exact absurd hc (by decide)
    · rintro (h | ⟨_, h | ⟨_, h | ⟨h', _⟩⟩⟩) <;> omega
  · exact iff_of_true rfl (Or.inr ⟨by omega, Or.inr ⟨by omega, Or.inl h6⟩⟩)
  · rw [goCompare_eq_one]
    constructor
    · intro hg
      exact Or.inr ⟨by omega, Or.inr ⟨by omega, Or.inr ⟨by omega, hg⟩⟩⟩
    · rintro (h | ⟨_, h | ⟨_, h | ⟨_, hg⟩⟩⟩)
      · omega
      · omega
      · omega
      · exact hg

/-- C8: `isDenyingSRV this that` holds exactly when the owner names agree up
to case folding and `this` is invalid (empty target or zero port) or is
lexicographically greater than `that` under the ordering priority, weight,
port, target name; in particular a valid record that compares smaller or
equal never denies. -/
theorem isDenyingSRV_iff (a b : SRVRec) :
    isDenyingSRV a b = true ↔
      (toLowerStr a.name = toLowerStr b.name ∧
        (a.target = [] ∨ a.port = 0 ∨ srvLexGreater a b)) := by
  unfold isDenyingSRV equalFold isValidSRV
  by_cases he : toLowerStr a.name = toLowerStr b.name
  · rw [if_pos (by simpa using he)]
    by_cases hv : (a.target.length > 0 && a.port != 0) = true
    · rw [if_neg (by simp [hv])]
      rw [Bool.and_eq_true] at hv
      obtain ⟨hlen, hport⟩ := hv
      have htgt : ¬a.target = [] := by
        intro hnil
        rw [hnil] at hlen
        exact absurd hlen (by decide)
      have hpo : ¬a.port = 0 := by
        intro h0
        rw [h0] at hport
        exact absurd hport (by decide)
      by_cases hc : compareSRV a b = 1
      · rw [if_pos hc]
        exact iff_of_true rfl ⟨he, Or.inr (Or.inr ((compareSRV_eq_one a b).mp hc))⟩
      · rw [if_neg hc]
        constructor
        · intro hf; exact absurd hf (by decide)
        · rintro ⟨_, hnil | h0 | hg⟩
          · exact absurd hnil htgt
          · exact absurd h0 hpo
          · exact absurd ((compareSRV_eq_one a b).mpr hg) hc
    · rw [if_pos (by simp only [Bool.not_eq_true'] at hv ⊢; simp [hv])]
      refine iff_of_true rfl ⟨he, ?_⟩
      rw [Bool.and_eq_true, not_and_or] at hv
      rcases hv with h | h
      · left
        have hz : ¬0 < a.target.length := by simpa using h
        exact List.eq_nil_of_length_eq_zero (by omega)
      · right; left
        simpa using h
  · rw [if_neg (by simpa using he)]
    constructor
    · intro hf; exact absurd hf (by decide)
    · rintro ⟨heq, _⟩; exact absurd heq he

/-- A conflict report with some conflict does not report none. -/
theorem hasNone_eq_false_of_hasAny (c : ProbeConflict) (h : c.hasAny = true) :
    c.hasNone = false := by
  cases c with
  | mk hh ss =>
    cases hh <;> cases ss <;>
      simp_all [ProbeConflict.hasAny, ProbeConflict.hasNone]

/-- Running the probe loop over conflicting rounds followed by a clean round
succeeds and returns the candidate accumulated by `probeRound`. -/
theorem probeLoop_all_conflicts (srv : Service) (po : Bool) :
    ∀ (cs : List ProbeConflict) (n : Nat) (st : ProbeState),
      cs.length < n → (∀ c ∈ cs, c.hasAny = true) →
      probeLoop srv po
          (cs.map RoundOutcome.conflict ++ [RoundOutcome.conflict ⟨false, false⟩])
          n st =
        some ((cs.foldl (probeRound srv po) st).candidate, none) := by
  intro cs
  induction cs with
  | nil =>
    intro n st hn _
    match n, hn with
    | n + 1, _ => simp [probeLoop, ProbeConflict.hasNone]
  | cons c cs ih =>
    intro n st hn hall
    match n, hn with
    | n + 1, hn =>
      have hc : c.hasAny = true := hall c (by simp)
      simp only [List.map_cons, List.cons_append, probeLoop]
      rw [hasNone_eq_false_of_hasAny c hc]
      simp only [Bool.false_eq_true, if_false, List.foldl_cons]
      exact ih n (probeRound srv po st c)
        (by simpa using Nat.lt_of_succ_lt_succ hn)
        (fun c' hc' => hall c' (by simp [hc']))

/-- The fields of one `probeRound` step, expressed through the bump
conditions. -/
theorem probeRound_fields (srv : Service) (po : Bool) (st : ProbeState)
    (c : ProbeConflict) :
    (probeRound srv po st c).numHostConflicts =
      (if c.hostname && (st.prevConflict.hostname || po) then
        st.numHostConflicts + 1 else st.numHostConflicts) ∧
    (probeRound srv po st c).candidate.host =
      (if c.hostname && (st.prevConflict.hostname || po) then
        srv.host ++ gs "-" ++ natToStr (st.numHostConflicts + 2)
       else st.candidate.host) ∧
    (probeRound srv po st c).prevConflict.hostname =
      (if c.hostname && (st.prevConflict.hostname || po) then false
       else c.hostname) ∧
    (probeRound srv po st c).numNameConflicts =
      (if c.serviceName && (st.prevConflict.serviceName || po) then
        st.numNameConflicts + 1 else st.numNameConflicts) ∧
    (probeRound srv po st c).candidate.name =
      (if c.serviceName && (st.prevConflict.serviceName || po) then
        srv.name ++ gs "-" ++ natToStr (st.numNameConflicts + 2)
       else st.candidate.name) ∧
    (probeRound srv po st c).prevConflict.serviceName =
      (if c.serviceName && (st.prevConflict.serviceName || po) then false
       else c.serviceName) := by
  unfold probeRound
  by_cases hb : (c.hostname && (st.prevConflict.hostname || po)) = true <;>
    by_cases nb : (c.serviceName && (st.prevConflict.serviceName || po)) = true <;>
      simp [hb, nb]

/-- Folding `probeRound` over a list of conflicts renames the candidate's
host and name according to the specification's bump count. -/
theorem foldl_probeRound_invariant (srv : Service) (po : Bool) :
    ∀ (cs : List ProbeConflict) (st : ProbeState),
      st.candidate.host = bumpedName srv.host st.numHostConflicts →
      st.candidate.name = bumpedName srv.name st.numNameConflicts →
      (cs.foldl (probeRound srv po) st).candidate.host =
        bumpedName srv.host (st.numHostConflicts +
          countBumps po ProbeConflict.hostname st.prevConflict.hostname cs) ∧
      (cs.foldl (probeRound srv po) st).candidate.name =
        bumpedName srv.name (st.numNameConflicts +
          countBumps po ProbeConflict.serviceName st.prevConflict.serviceName cs) := by
  intro cs
  induction cs with
  | nil =>
    intro st h1 h2
    simpa [countBumps] using ⟨h1, h2⟩
  | cons c cs ih =>
    intro st h1 h2
    obtain ⟨e1, e2, e3, e4, e5, e6⟩ := probeRound_fields srv po st c
    rw [List.foldl_cons]
    have hcntH : countBumps po ProbeConflict.hostname st.prevConflict.hostname
        (c :: cs) =
        (if c.hostname && (st.prevConflict.hostname || po) then
          1 + countBumps po ProbeConflict.hostname false cs
         else countBumps po ProbeConflict.hostname c.hostname cs) := by
      simp [countBumps]
    have hcntN : countBumps po ProbeConflict.serviceName
        st.prevConflict.serviceName (c :: cs) =
        (if c.serviceName && (st.prevConflict.serviceName || po) then
          1 + countBumps po ProbeConflict.serviceName false cs
         else countBumps po ProbeConflict.serviceName c.serviceName cs) := by
      simp [countBumps]
    have h1' : (probeRound srv po st c).candidate.host =
        bumpedName srv.host (probeRound srv po st c).numHostConflicts := by
      rw [e1, e2]
      by_cases hb : (c.hostname && (st.prevConflict.hostname || po)) = true
      · rw [if_pos hb, if_pos hb]
        rfl
      · rw [if_neg hb, if_neg hb]
        exact h1
    have h2' : (probeRound srv po st c).candidate.name =
        bumpedName srv.name (probeRound srv po st c).numNameConflicts := by
      rw [e4, e5]
      by_cases nb : (c.serviceName && (st.prevConflict.serviceName || po)) = true
      · rw [if_pos nb, if_pos nb]
        rfl
      · rw [if_neg nb, if_neg nb]
        exact h2
    obtain ⟨ihH, ihN⟩ := ih (probeRound srv po st c) h1' h2'
    constructor
    · rw [ihH, e1, e3, hcntH]
      by_cases hb : (c.hostname && (st.prevConflict.hostname || po)) = true
      · rw [if_pos hb, if_pos hb, if_pos hb]
        have harith : st.numHostConflicts + 1 +
            countBumps po ProbeConflict.hostname false cs =
            st.numHostConflicts +
              (1 + countBumps po ProbeConflict.hostname false cs) := by omega
        rw [harith]
      · rw [if_neg hb, if_neg hb, if_neg hb]
    · rw [ihN, e4, e6, hcntN]
      by_cases nb : (c.serviceName && (st.prevConflict.serviceName || po)) = true
      · rw [if_pos nb, if_pos nb, if_pos nb]
        have harith : st.numNameConflicts + 1 +
            countBumps po ProbeConflict.serviceName false cs =
            st.numNameConflicts +
              (1 + countBumps po ProbeConflict.serviceName false cs) := by omega
        rw [harith]
      · rw [if_neg nb, if_neg nb, if_neg nb]

/-- C9: when conflicts persist per the two-round rule (one round when
reprobing), `probeService` renames the candidate by appending "-N" to the
ORIGINAL host (resp. name), with N = number of bumps + 1, starting at 2 —
never stacking suffixes — and clears the handled conflict flag; the run
below then claims the renamed service.  `countBumps` counts the conflicts
that persist across two rounds (or one when `po`), `bumpedName` appends the
suffix to the original label. -/
theorem probeService_rename (srv : Service) (po : Bool)
    (cs : List ProbeConflict) (h100 : cs.length < 100)
    (hall : ∀ c ∈ cs, c.hasAny = true) :
    ∃ s, probeService
        (cs.map RoundOutcome.conflict ++ [RoundOutcome.conflict ⟨false, false⟩])
        srv po = some (s, none) ∧
      s.host = bumpedName srv.host (countBumps po ProbeConflict.hostname false cs) ∧
      s.name = bumpedName srv.name (countBumps po ProbeConflict.serviceName false cs) := by
  unfold probeService
  rw [probeLoop_all_conflicts srv po cs 100 _ h100 hall]
  refine ⟨_, rfl, ?_, ?_⟩
  · have h := foldl_probeRound_invariant srv po cs
      { candidate := srv, prevConflict := ⟨false, false⟩,
        numHostConflicts := 0, numNameConflicts := 0 } rfl rfl
    simpa using h.1
  · have h := foldl_probeRound_invariant srv po cs
      { candidate := srv, prevConflict := ⟨false, false⟩,
        numHostConflicts := 0, numNameConflicts := 0 } rfl rfl
    simpa using h.2

/-- C9 witness: a probe for host "Alpha" that reports a hostname conflict in
two consecutive rounds claims "Alpha-2" and keeps the name "Test". -/
theorem probeService_rename_witness :
    ∃ s, probeService
        ([⟨true, false⟩, ⟨true, false⟩].map RoundOutcome.conflict ++
          [RoundOutcome.conflict ⟨false, false⟩])
        alphaService false = some (s, none) ∧
      s.host = gs "Alpha-2" ∧ s.name = gs "Test" := by
  obtain ⟨s, hs, h1, h2⟩ := probeService_rename alphaService false
    [⟨true, false⟩, ⟨true, false⟩] (by decide) (by decide)
  refine ⟨s, hs, ?_, ?_⟩
  · rw [h1]; rfl
  · rw [h2]; rfl

/-- C2 (amended): `lookupInstance` sends an SRV and a TXT question for the
instance, both with the unicast-response bit (bit 15 of QCLASS) set, and
returns the looked-up service as soon as the cache contains the requested
instance entry — whatever its Host and Port; until such an entry exists it
keeps reading (no earlier prefix of received messages yields the entry), and
if the context is cancelled first it returns the context's error with the
zero service. -/
theorem lookupInstance_amended (inst : GoStr) (c : Cache)
    (evts : List LookupEvent) :
    (∀ q ∈ lookupQuestions inst, q.name = inst ∧ Nat.testBit q.qclass 15 = true) ∧
    (lookupQuestions inst).map Question.qtype = [typeSRV, typeTXT] ∧
    (∀ s, lookupRun inst c evts = some (s, none) →
      ∃ k, k < evts.length ∧
        lookup? (cacheAfter c (evts.take (k + 1))).services inst = some s ∧
        (∀ j, j < k →
          lookup? (cacheAfter c (evts.take (j + 1))).services inst = none) ∧
        LookupEvent.cancel ∉ evts.take (k + 1)) ∧
    (∀ s e, lookupRun inst c evts = some (s, some e) →
      s = zeroService ∧ e = LookupErr.ctxDone) := by
  refine ⟨?_, rfl, ?_, ?_⟩
  · intro q hq
    rcases List.mem_cons.mp hq with h | hq2
    · subst h
      refine ⟨rfl, ?_⟩
      show Nat.testBit (classINET ||| 32768) 15 = true
      decide
    · rcases List.mem_cons.mp hq2 with h | hq3
      · subst h
        refine ⟨rfl, ?_⟩
        show Nat.testBit (classINET ||| 32768) 15 = true
        decide
      · exact absurd hq3 (List.not_mem_nil q)
  · intro s
    induction evts generalizing c with
    | nil =>
      intro h
      exact absurd h (by simp [lookupRun])
    | cons ev rest ih =>
      cases ev with
      | cancel =>
        intro h
        simp [lookupRun] at h
      | recv msg ifc n n' =>
        intro h
        simp only [lookupRun] at h
        cases hl : lookup? ((UpdateFrom c msg ifc n n').1).services inst with
        | some s0 =>
          rw [hl] at h
          simp only [Option.some.injEq, Prod.mk.injEq] at h
          refine ⟨0, by simp, ?_, ?_, ?_⟩
          · simpa [cacheAfter, h.1] using hl
          · intro j hj
            exact absurd hj (Nat.not_lt_zero j)
          · simp
        | none =>
          rw [hl] at h
          obtain ⟨k, hk, hlook, hprev, hnc⟩ := ih ((UpdateFrom c msg ifc n n').1) h
          refine ⟨k + 1, by simpa using Nat.succ_lt_succ hk, ?_, ?_, ?_⟩
          · simpa [cacheAfter] using hlook
          · intro j hj
            cases j with
            | zero => simpa [cacheAfter] using hl
            | succ j' =>
              have hj' : j' < k := by omega
              simpa [cacheAfter] using hprev j' hj'
          · simpa using hnc
  · intro s e
    induction evts generalizing c with
    | nil =>
      intro h
      exact absurd h (by simp [lookupRun])
    | cons ev rest ih =>
      cases ev with
      | cancel =>
        intro h
        simp only [lookupRun, Option.some.injEq, Prod.mk.injEq] at h
        cases e
        exact ⟨h.1.symm, rfl⟩
      | recv msg ifc n n' =>
        intro h
        simp only [lookupRun] at h
        cases hl : lookup? ((UpdateFrom c msg ifc n n').1).services inst with
        | some s0 =>
          rw [hl] at h
          simp at h
        | none =>
          rw [hl] at h
          exact ih ((UpdateFrom c msg ifc n n').1) h

/-- C2 (witness): the amended theorem applied at the concrete
single-message run of the counterexample input. -/
theorem lookupInstance_amended_witness :
    ∃ k, k < ([LookupEvent.recv ptrMsg iface0 0 0] : List LookupEvent).length ∧
      lookup? (cacheAfter NewCache
          (([LookupEvent.recv ptrMsg iface0 0 0] : List LookupEvent).take (k + 1))).services
          svcKey = some ptrEntry ∧
      (∀ j, j < k →
        lookup? (cacheAfter NewCache
            (([LookupEvent.recv ptrMsg iface0 0 0] : List LookupEvent).take (j + 1))).services
            svcKey = none) ∧
      LookupEvent.cancel ∉
        ([LookupEvent.recv ptrMsg iface0 0 0] : List LookupEvent).take (k + 1) :=
  (lookupInstance_amended svcKey NewCache
      [LookupEvent.recv ptrMsg iface0 0 0]).2.2.1 ptrEntry (by rfl)

/-- Looking up the key just inserted finds the inserted value. -/
theorem lookup?_mapInsert {α : Type} :
    ∀ (m : List (GoStr × α)) (k : GoStr) (v : α),
      lookup? (mapInsert m k v) k = some v := by
  intro m k v
  induction m with
  | nil => simp [mapInsert, lookup?]
  | cons p rest ih =>
    cases p with
    | mk k' v' =>
      by_cases h : (k' == k) = true
      · simp [mapInsert, h, lookup?]
      · have hb : (k' == k) = false := by simpa using h
        simp only [mapInsert, hb, if_false, Bool.false_eq_true]
        simp only [lookup?, List.find?] at ih ⊢
        rw [hb]
        exact ih

/-- The inserted pair is a member of the map after insertion. -/
theorem mem_mapInsert {α : Type} :
    ∀ (m : List (GoStr × α)) (k : GoStr) (v : α), (k, v) ∈ mapInsert m k v := by
  intro m k v
  induction m with
  | nil => simp [mapInsert]
  | cons p rest ih =>
    cases p with
    | mk k' v' =>
      by_cases h : (k' == k) = true
      · simp [mapInsert, h]
      · simp only [mapInsert, h, if_false, Bool.false_eq_true]
        exact List.mem_cons_of_mem _ ih

/-- A key that occurs nowhere in the map has no binding. -/
theorem lookup?_eq_none_of_not_mem_keys {α : Type} :
    ∀ (m : List (GoStr × α)) (k : GoStr), k ∉ m.map Prod.fst →
      lookup? m k = none := by
  intro m k
  induction m with
  | nil => intro _; simp [lookup?]
  | cons p rest ih =>
    intro hk
    cases p with
    | mk k' v' =>
      simp only [List.map_cons, List.mem_cons, not_or] at hk
      have hb : (k' == k) = false := by
        simp only [beq_eq_false_iff_ne, ne_eq]
        exact fun hkk => hk.1 hkk.symm
      simp only [lookup?, List.find?]
      rw [hb]
      exact ih hk.2

/-- The keys after insertion come from the original keys or are the inserted
key. -/
theorem mem_keys_mapInsert {α : Type} :
    ∀ (m : List (GoStr × α)) (k : GoStr) (v : α) (x : GoStr),
      x ∈ (mapInsert m k v).map Prod.fst → x ∈ m.map Prod.fst ∨ x = k := by
  intro m k v x
  induction m with
  | nil =>
    intro hx
    exact Or.inr (by simpa [mapInsert] using hx)
  | cons p rest ih =>
    cases p with
    | mk k' v' =>
      by_cases h : (k' == k) = true
      · simp only [mapInsert, h, if_true, List.map_cons, List.mem_cons]
        rintro (h1 | h1)
        · exact Or.inr h1
        · exact Or.inl (Or.inr h1)
      · simp only [mapInsert, h, if_false, Bool.false_eq_true, List.map_cons,
          List.mem_cons]
        rintro (h1 | h1)
        · exact Or.inl (Or.inl h1)
        · rcases ih h1 with h2 | h2
          · exact Or.inl (Or.inr h2)
          · exact Or.inr h2

/-- Insertion preserves duplicate-freedom of the keys. -/
theorem nodup_keys_mapInsert {α : Type} :
    ∀ (m : List (GoStr × α)) (k : GoStr) (v : α),
      (m.map Prod.fst).Nodup → ((mapInsert m k v).map Prod.fst).Nodup := by
  intro m k v
  induction m with
  | nil => intro _; simp [mapInsert]
  | cons p rest ih =>
    intro hnd
    cases p with
    | mk k' v' =>
      simp only [List.map_cons, List.nodup_cons] at hnd
      by_cases h : (k' == k) = true
      · have hk : k' = k := by simpa using h
        simp only [mapInsert, h, if_true, List.map_cons, List.nodup_cons]
        exact ⟨hk ▸ hnd.1, hnd.2⟩
      · simp only [mapInsert, h, if_false, Bool.false_eq_true, List.map_cons,
          List.nodup_cons]
        refine ⟨?_, ih hnd.2⟩
        intro hmem
        rcases mem_keys_mapInsert rest k v k' hmem with h1 | h1
        · exact hnd.1 h1
        · exact absurd (by simp [h1]) h

/-- Under duplicate-free keys, filtering commutes with lookup as expected. -/
theorem lookup?_filter {α : Type} (p : GoStr × α → Bool) :
    ∀ (m : List (GoStr × α)) (k : GoStr) (v : α),
      (m.map Prod.fst).Nodup → lookup? m k = some v →
      lookup? (m.filter p) k = if p (k, v) then some v else none := by
  intro m k v
  induction m with
  | nil => intro _ h; simp [lookup?] at h
  | cons q rest ih =>
    intro hnd hl
    cases q with
    | mk k' v' =>
      simp only [List.map_cons, List.nodup_cons] at hnd
      by_cases h : (k' == k) = true
      · have hk : k' = k := by simpa using h
        have hv : v' = v := by
          simp only [lookup?, List.find?, h, if_true] at hl
          simpa using hl
        subst hk
        subst hv
        by_cases hp : p (k', v') = true
        · rw [List.filter_cons_of_pos hp, if_pos hp]
          simp [lookup?]
        · rw [List.filter_cons_of_neg (by simpa using hp), if_neg (by simpa using hp)]
          refine lookup?_eq_none_of_not_mem_keys _ _ ?_
          intro hmem
          have hsub : ((rest.filter p).map Prod.fst) ⊆ rest.map Prod.fst :=
            ((List.filter_sublist rest).map Prod.fst).subset
          exact hnd.1 (hsub hmem)
      · have hl' : lookup? rest k = some v := by
          simp only [lookup?, List.find?, h] at hl
          simpa [lookup?] using hl
        by_cases hp : p (k', v') = true
        · rw [List.filter_cons_of_pos hp]
          have := ih hnd.2 hl'
          simp only [lookup?, List.find?, h] at this ⊢
          exact this
        · rw [List.filter_cons_of_neg (by simpa using hp)]
          exact ih hnd.2 hl'

/-- C5 (amended): in `Cache.UpdateFrom`, a PTR record with TTL > 0 whose
pointed-to name is unknown creates a new entry stored under the re-serialized
instance name `newService(ptr).ServiceInstanceName()`; when the pointed-to
name re-serializes to itself (the canonical `label.type1.type2.domain.`
shape) a lookup by exactly that name finds the entry, which also appears in
the adds list.  A PTR with TTL = 0 for an instance already cached expires the
entry at once, so the same call removes it and reports it in the removed
list. -/
theorem cache_ptr_amended (c : Cache) (hnd : (c.services.map Prod.fst).Nodup)
    (hdr : RRHeader) (ptrName : GoStr) (iface : Iface) (now now' : Nat) :
    (lookup? c.services ptrName = none → 0 < hdr.ttl →
      ServiceInstanceName (newService ptrName) = ptrName →
      now' ≤ now + hdr.ttl →
      lookup? (UpdateFrom c { answer := [.ptr hdr ptrName] } iface now now').1.services
          ptrName =
        some { newService ptrName with ttl := hdr.ttl, expiration := now + hdr.ttl } ∧
      { newService ptrName with ttl := hdr.ttl, expiration := now + hdr.ttl } ∈
        (UpdateFrom c { answer := [.ptr hdr ptrName] } iface now now').2.1) ∧
    (∀ e, lookup? c.services ptrName = some e → hdr.ttl = 0 → now < now' →
      lookup? (UpdateFrom c { answer := [.ptr hdr ptrName] } iface now now').1.services
          ptrName = none ∧
      { e with ttl := 0, expiration := now } ∈
        (UpdateFrom c { answer := [.ptr hdr ptrName] } iface now now').2.2) := by
  constructor
  · intro hnone httl hcanon hkeep
    have hup : updateRecords c { answer := [.ptr hdr ptrName] } iface now =
        (⟨mapInsert c.services ptrName
            { newService ptrName with ttl := hdr.ttl, expiration := now + hdr.ttl }⟩,
         [{ newService ptrName with ttl := hdr.ttl, expiration := now + hdr.ttl }]) := by
      simp only [updateRecords, filterRecordsNilService, sortByType, isSrvOrPtr]
      simp only [List.append_nil, List.nil_append, List.filter, List.foldl]
      simp [processRecord, hnone, Nat.pos_iff_ne_zero.mp httl, hcanon]
    constructor
    · simp only [UpdateFrom, hup, removeExpired]
      have hnd' := nodup_keys_mapInsert c.services ptrName
        { newService ptrName with ttl := hdr.ttl, expiration := now + hdr.ttl } hnd
      rw [lookup?_filter _ _ _ _ hnd' (lookup?_mapInsert ..)]
      rw [if_pos (by simp; omega)]
    · simp [UpdateFrom, hup, removeExpired]
  · intro e he httl0 hlt
    have hup : updateRecords c { answer := [.ptr hdr ptrName] } iface now =
        (⟨mapInsert c.services ptrName { e with ttl := 0, expiration := now }⟩,
         []) := by
      simp only [updateRecords, filterRecordsNilService, sortByType, isSrvOrPtr]
      simp only [List.append_nil, List.nil_append, List.filter, List.foldl]
      simp [processRecord, he, httl0]
    have hnd' := nodup_keys_mapInsert c.services ptrName
      { e with ttl := 0, expiration := now } hnd
    constructor
    · simp only [UpdateFrom, hup, removeExpired]
      rw [lookup?_filter _ _ _ _ hnd' (lookup?_mapInsert ..)]
      rw [if_neg (by simp; omega)]
    · simp only [UpdateFrom, hup, removeExpired]
      refine List.mem_map.mpr ⟨(ptrName, { e with ttl := 0, expiration := now }), ?_, rfl⟩
      refine List.mem_filter.mpr ⟨mem_mapInsert .., ?_⟩
      simp
      omega

/-- C5 (witness): the amended theorem at a concrete canonical instance name —
creation with TTL 5 checked at times 0/1, goodbye on the populated cache
checked at times 5/6. -/
theorem cache_ptr_amended_witness :
    (lookup? (UpdateFrom NewCache
        { answer := [.ptr ⟨gs "_asdf._tcp.local.", classINET, 5⟩ svcKey] }
        iface0 0 1).1.services svcKey =
      some { newService svcKey with ttl := 5, expiration := 5 }) ∧
    (lookup? (UpdateFrom txtCache
        { answer := [.ptr ⟨gs "_asdf._tcp.local.", classINET, 0⟩ svcKey] }
        iface0 5 6).1.services svcKey = none ∧
      { txtCacheEntry with ttl := 0, expiration := 5 } ∈
        (UpdateFrom txtCache
          { answer := [.ptr ⟨gs "_asdf._tcp.local.", classINET, 0⟩ svcKey] }
          iface0 5 6).2.2) := by
  refine ⟨?_, ?_⟩
  · exact (cache_ptr_amended NewCache (by simp [NewCache])
      ⟨gs "_asdf._tcp.local.", classINET, 5⟩ svcKey iface0 0 1).1
      (by rfl) (by decide) (by rfl) (by decide) |>.1
  · exact (cache_ptr_amended txtCache (by simp [txtCache])
      ⟨gs "_asdf._tcp.local.", classINET, 0⟩ svcKey iface0 5 6).2
      txtCacheEntry (by rfl) rfl (by decide)

/-- C10: when `Cache.UpdateFrom` returns, the cache holds no entry whose
expiration lies before the instant `now'` at which expired entries were
collected, and every entry of the post-processing cache that was expired at
that instant has been deleted from the services map and reported in the
removed list of the same call. -/
theorem cache_expiry_invariant (c : Cache) (msg : Msg) (iface : Iface)
    (now now' : Nat) :
    (∀ p ∈ (UpdateFrom c msg iface now now').1.services,
      now' ≤ p.2.expiration) ∧
    (∀ p ∈ (updateRecords c msg iface now).1.services, p.2.expiration < now' →
      p ∉ (UpdateFrom c msg iface now now').1.services ∧
      p.2 ∈ (UpdateFrom c msg iface now now').2.2) := by
  constructor
  · intro p hp
    simp only [UpdateFrom, removeExpired] at hp
    have h2 := (List.mem_filter.mp hp).2
    simp only [Bool.not_eq_true', decide_eq_false_iff_not, Nat.not_lt] at h2
    exact h2
  · intro p hp hexp
    constructor
    · intro hmem
      simp only [UpdateFrom, removeExpired] at hmem
      have h2 := (List.mem_filter.mp hmem).2
      simp only [Bool.not_eq_true', decide_eq_false_iff_not, Nat.not_lt] at h2
      omega
    · simp only [UpdateFrom, removeExpired]
      exact List.mem_map.mpr
        ⟨p, List.mem_filter.mpr ⟨hp, by simpa using hexp⟩, rfl⟩

/-- C10 witness: an entry expired at collection time 4 is gone from the
cache and reported removed by the same `UpdateFrom` call. -/
theorem cache_expiry_invariant_witness :
    (svcKey, staleEntry) ∉ (UpdateFrom staleCache {} iface0 0 4).1.services ∧
    staleEntry ∈ (UpdateFrom staleCache {} iface0 0 4).2.2 :=
  (cache_expiry_invariant staleCache {} iface0 0 4).2 (svcKey, staleEntry)
    (by decide) (by decide)

/-- Record identity is reflexive. -/
theorem rrDataEq_refl (r : RR) : rrDataEq r r = true := by
  cases r <;> simp [rrDataEq]

/-- Changing a record's class does not change its identity for known-answer
suppression. -/
theorem rrDataEq_withClass (x : RR) (cl : Nat) (y : RR) :
    rrDataEq (x.withClass cl) y = rrDataEq x y := by
  cases x <;> cases y <;> rfl

/-- A record matched by nothing in `known` is not suppressed. -/
theorem any_rrDataEq_eq_false {known : List RR} {x : RR}
    (h : ∀ r ∈ known, rrDataEq x r = false) :
    known.any (rrDataEq x) = false := by
  rw [List.any_eq_false]
  intro r hr
  simp [h r hr]

/-- C6: for a question naming a managed service's instance (up to case),
when the request carries no known answer matching the instance's SRV, TXT or
PTR record, the response built by `handleQuestion` has an Answer section with
exactly one SRV, one TXT and one PTR record — SRV and TXT owned by the
instance name and carrying the cache-flush bit (bit 15 of CLASS), the PTR
pointing at the instance name — and an Additional section consisting solely
of A, AAAA and NSEC records. -/
theorem handleQuestion_instance_answers (q : Question) (req : Request)
    (srv : Service)
    (hq : toLowerStr q.name = toLowerStr (ServiceInstanceName srv))
    (hka : ∀ r ∈ req.msg.answer, rrDataEq (SRV srv) r = false ∧
      rrDataEq (TXT srv) r = false ∧ rrDataEq (PTR srv) r = false) :
    ∃ m, handleQuestion q req srv = some m ∧
      m.answer.countP RR.isSrv = 1 ∧
      m.answer.countP RR.isTxt = 1 ∧
      m.answer.countP RR.isPtr = 1 ∧
      m.answer.length = 3 ∧
      (∀ r ∈ m.answer, (r.isSrv = true ∨ r.isTxt = true) →
        r.header.name = ServiceInstanceName srv ∧
        Nat.testBit r.header.cls 15 = true) ∧
      (∃ r ∈ m.answer, r.isPtr = true ∧
        r = (PTR srv).withClass (classINET ||| 32768)) ∧
      (∀ r ∈ m.extra, r.isA = true ∨ r.isAaaa = true ∨ r.isNsec = true) := by
  have hne : (toLowerStr q.name == toLowerStr (ServiceName srv)) = false := by
    rw [beq_eq_false_iff_ne]
    intro heq
    have h1 : (toLowerStr q.name).length =
        (toLowerStr (ServiceName srv)).length := by rw [heq]
    rw [hq] at h1
    simp only [toLowerStr, List.length_map] at h1
    have h2 : (ServiceInstanceName srv).length =
        srv.name.length + 1 + (ServiceName srv).length := by
      simp only [ServiceInstanceName, ServiceName, gs, List.length_append]
      simp [gs]
      omega
    omega
  have hq2 : (toLowerStr q.name == toLowerStr (ServiceInstanceName srv)) = true :=
    beq_iff_eq.mpr hq
  have hsup : ∀ x ∈ [(SRV srv).withClass (classINET ||| 32768),
      (TXT srv).withClass (classINET ||| 32768),
      (PTR srv).withClass (classINET ||| 32768)],
      req.msg.answer.any (rrDataEq x) = false := by
    intro x hx
    rcases List.mem_cons.mp hx with h | hx1
    · subst h
      exact any_rrDataEq_eq_false (fun r hr => by
        rw [rrDataEq_withClass]; exact (hka r hr).1)
    rcases List.mem_cons.mp hx1 with h | hx2
    · subst h
      exact any_rrDataEq_eq_false (fun r hr => by
        rw [rrDataEq_withClass]; exact (hka r hr).2.1)
    rcases List.mem_cons.mp hx2 with h | hx3
    · subst h
      exact any_rrDataEq_eq_false (fun r hr => by
        rw [rrDataEq_withClass]; exact (hka r hr).2.2)
    · exact absurd hx3 (List.not_mem_nil x)
  have hstep : handleQuestion q req srv = some
      { answer := remove req.msg.answer
          [(SRV srv).withClass (classINET ||| 32768),
           (TXT srv).withClass (classINET ||| 32768),
           (PTR srv).withClass (classINET ||| 32768)],
        extra := A srv req.iface ++ AAAA srv req.iface ++
          [NSEC (SRV srv) srv req.iface] } := by
    unfold handleQuestion
    rw [hne, hq2]
    rfl
  have hbuilt : handleQuestion q req srv = some
      { answer := [(SRV srv).withClass (classINET ||| 32768),
          (TXT srv).withClass (classINET ||| 32768),
          (PTR srv).withClass (classINET ||| 32768)],
        extra := A srv req.iface ++ AAAA srv req.iface ++
          [NSEC (SRV srv) srv req.iface] } := by
    rw [hstep]
    congr 1
    unfold remove
    rw [List.filter_cons_of_pos
        (by simp [hsup ((SRV srv).withClass (classINET ||| 32768)) (by simp)]),
      List.filter_cons_of_pos
        (by simp [hsup ((TXT srv).withClass (classINET ||| 32768)) (by simp)]),
      List.filter_cons_of_pos
        (by simp [hsup ((PTR srv).withClass (classINET ||| 32768)) (by simp)]),
      List.filter_nil]
  refine ⟨_, hbuilt, rfl, rfl, rfl, rfl, ?_, ?_, ?_⟩
  · intro r hr hk
    rcases List.mem_cons.mp hr with h | hr1
    · subst h
      refine ⟨rfl, ?_⟩
      show Nat.testBit (classINET ||| 32768) 15 = true
      decide
    rcases List.mem_cons.mp hr1 with h | hr2
    · subst h
      refine ⟨rfl, ?_⟩
      show Nat.testBit (classINET ||| 32768) 15 = true
      decide
    rcases List.mem_cons.mp hr2 with h | hr3
    · subst h
      rcases hk with h | h <;>
        simp [PTR, RR.withClass, RR.isSrv, RR.isTxt] at h
    · exact absurd hr3 (List.not_mem_nil r)
  · exact ⟨(PTR srv).withClass (classINET ||| 32768), by simp, rfl, rfl⟩
  · intro r hr
    rcases List.mem_append.mp hr with h1 | h1
    · rcases List.mem_append.mp h1 with h2 | h2
      · rcases List.mem_map.mp h2 with ⟨ip, _, rfl⟩
        exact Or.inl rfl
      · rcases List.mem_map.mp h2 with ⟨ip, _, rfl⟩
        exact Or.inr (Or.inl rfl)
    · rcases List.mem_cons.mp h1 with h2 | h2
      · subst h2
        exact Or.inr (Or.inr rfl)
      · exact absurd h2 (List.not_mem_nil r)

/-- C6 witness: the theorem at the concrete instance question with no known
answers. -/
theorem handleQuestion_instance_answers_witness :
    ∃ m, handleQuestion instQ emptyReq plainService = some m ∧
      m.answer.countP RR.isSrv = 1 ∧ m.answer.countP RR.isTxt = 1 ∧
      m.answer.countP RR.isPtr = 1 ∧ m.answer.length = 3 := by
  obtain ⟨m, hm, h1, h2, h3, h4, _⟩ :=
    handleQuestion_instance_answers instQ emptyReq plainService (by decide)
      (fun r hr => absurd hr (by simp [emptyReq]))
  exact ⟨m, hm, h1, h2, h3, h4⟩

/-- C7: known-answer suppression — every record already present in the
request's Answer section is absent from the Answer section of any response
`handleQuestion` assembles, and `handleQuery` sends no message for a
question whose merged answers were all suppressed: every sent message has a
non-empty Answer section. -/
theorem known_answer_suppression (req : Request) (services : List Service) :
    (∀ q srv m, handleQuestion q req srv = some m →
      ∀ r ∈ req.msg.answer, r ∉ m.answer) ∧
    (∀ m ∈ handleQuery req services, m.answer ≠ []) := by
  constructor
  · intro q srv m hm r hr hrm
    unfold handleQuestion at hm
    rcases Option.map_eq_some'.mp hm with ⟨m0, _, hfm⟩
    subst hfm
    have hrm' : r ∈ remove req.msg.answer m0.answer := hrm
    unfold remove at hrm'
    have hpred := (List.mem_filter.mp hrm').2
    have hany : req.msg.answer.any (rrDataEq r) = true :=
      List.any_eq_true.mpr ⟨r, hr, rrDataEq_refl r⟩
    rw [hany] at hpred
    exact absurd hpred (by decide)
  · intro m hm
    unfold handleQuery at hm
    rcases List.mem_filterMap.mp hm with ⟨q, _, hsome⟩
    have hsome' :
        (if (mergeMsgs (services.filterMap fun srv => handleQuestion q req srv)).answer.isEmpty
          then none
          else some (mergeMsgs (services.filterMap fun srv => handleQuestion q req srv)))
          = some m := hsome
    by_cases he :
        (mergeMsgs (services.filterMap fun srv => handleQuestion q req srv)).answer.isEmpty = true
    · rw [if_pos he] at hsome'
      exact absurd hsome' (by simp)
    · rw [if_neg he] at hsome'
      intro hnil
      apply he
      rw [Option.some_inj.mp hsome', hnil]
      rfl

/-- C7 witness: with the request's Answer already listing the service's SRV
and TXT records, the assembled instance response keeps only the PTR, and the
suppressed SRV record is absent. -/
theorem known_answer_suppression_witness :
    handleQuestion instQ knownReq plainService = some suppressedResp ∧
    SRV plainService ∈ knownReq.msg.answer ∧
    SRV plainService ∉ suppressedResp.answer := by
  refine ⟨by rfl, by simp [knownReq], ?_⟩
  exact (known_answer_suppression knownReq [plainService]).1 instQ plainService
    suppressedResp (by rfl) (SRV plainService) (by simp [knownReq])

end Dnssd
